import Mathlib

/-!
Shallow embedding of the authorization-and-metering core of the EV charging
kiosk (React/TypeScript sources under `src/`).  Monetary amounts, battery
percentages, energies and timestamps-in-milliseconds are embedded as rationals;
the browser `localStorage` backing store is embedded as explicit state that is
threaded through the `db.*` operations.  Each definition mirrors one function
of the source; the theorems at the end of the file settle the frozen claims.
-/

namespace EVKiosk

/-- Status field of a `ChargingSession` (`src/types`). -/
inductive SessionStatus where
  | in_progress
  | completed
  | stopped
deriving DecidableEq, Repr

/-- `User` record (`src/types`).  `balance` is a decimal amount, embedded as a
rational. -/
structure User where
  id : String
  name : String
  rfidCardId : String
  balance : ℚ
  phoneNumber : Option String
  createdAt : String
deriving DecidableEq, Repr

/-- `ChargingSession` record (`src/types`). -/
structure ChargingSession where
  id : String
  userId : String
  userName : String
  paidAmount : ℚ
  targetBattery : ℚ
  startBattery : ℚ
  endBattery : Option ℚ
  energyDelivered : ℚ
  voltage : ℚ
  current : ℚ
  power : ℚ
  startTime : String
  endTime : Option String
  status : SessionStatus
  remainingBalance : ℚ
deriving DecidableEq, Repr

/-- `Transaction` record (`src/types`); the `type` string field is kept
verbatim. -/
structure Transaction where
  id : String
  userId : String
  userName : String
  type : String
  amount : ℚ
  timestamp : String
  description : String
  sessionId : Option String
deriving DecidableEq, Repr

/-- Battery sample returned by `hardware.getBatteryStatus`
(`src/src/services/hardware.ts`). -/
structure BatteryStatus where
  percentage : ℚ
  voltage : ℚ
  current : ℚ
  power : ℚ
deriving DecidableEq, Repr

/-- JavaScript `x || d` on an optional number (`batteryStatus?.f || d` in the
sources): `undefined` and `0` are falsy and give the default. -/
def jsOrQ (x : Option ℚ) (d : ℚ) : ℚ :=
  match x with
  | none => d
  | some v => if v = 0 then d else v

/-- JavaScript `batteryStatus?.percentage || null`
(`AppContext.stopCharging`): `undefined` and `0` both give `null`. -/
def jsOrNullQ (x : Option ℚ) : Option ℚ :=
  match x with
  | none => none
  | some v => if v = 0 then none else some v

/-- First hardcoded demo user of `DEFAULT_USERS` (`src/services/database`,
third document of `src/src/services/hardware.ts`, lines 537-562); the
`createdAt` timestamp is abstracted to a fixed string. -/
def lalitUser : User :=
  { id := "1", name := "Lalit Nikumbh", rfidCardId := "RFID001",
    balance := 100, phoneNumber := some "+91 9876543212", createdAt := "t0" }

/-- Second hardcoded demo user of `DEFAULT_USERS`. -/
def fateenUser : User :=
  { id := "2", name := "Fateen Shaikh", rfidCardId := "RFID002",
    balance := 150, phoneNumber := some "+91 9876543213", createdAt := "t0" }

/-- Third hardcoded demo user of `DEFAULT_USERS`. -/
def nishadUser : User :=
  { id := "3", name := "Nishad Deshmukh", rfidCardId := "RFID003",
    balance := 90, phoneNumber := some "+91 9876543214", createdAt := "t0" }

/-- The hardcoded demo user list `DEFAULT_USERS` of `src/services/database`. -/
def DEFAULT_USERS : List User :=
  [lalitUser, fateenUser, nishadUser]

/-- The filter predicate of `db.getUsers`: keep a user unless the name is
"John Doe" or "Jane Smith". -/
def keepUser (u : User) : Bool :=
  !(u.name == "John Doe") && !(u.name == "Jane Smith")

/-- `db.getUsers` (lines 566-611).  The stored value under the
`ev_charging_users` key is `none` when the key is absent.  Returns the user
list handed to the caller together with the new stored value (the function
writes through `saveUsers` on three of its paths). -/
def getUsersFn (stored : Option (List User)) : List User × Option (List User) :=
  match stored with
  | none => (DEFAULT_USERS, some DEFAULT_USERS)
  | some users =>
    let filteredUsers := users.filter keepUser
    let existingNames := filteredUsers.map (fun u => u.name)
    let missingUsers := DEFAULT_USERS.filter
      (fun d => !(existingNames.contains d.name))
    if missingUsers.length > 0 then
      let mergedUsers := filteredUsers ++ missingUsers
      (mergedUsers, some mergedUsers)
    else if filteredUsers.length ≠ users.length then
      (filteredUsers, some filteredUsers)
    else if filteredUsers.length < 3 then
      (DEFAULT_USERS, some DEFAULT_USERS)
    else
      (filteredUsers, stored)

/-- In-place mutation of the first user whose `id` matches, as performed by
`db.updateUserBalance` via `users.find` followed by assignment to
`user.balance`. -/
def updateFirst (users : List User) (userId : String) (newBalance : ℚ) :
    List User :=
  match users with
  | [] => []
  | u :: rest =>
    if u.id == userId then { u with balance := newBalance } :: rest
    else u :: updateFirst rest userId newBalance

/-- `db.updateUserBalance` (lines 627-634): read through `getUsers`, mutate
the first `id` match, save; when the user is not found nothing is saved beyond
the `getUsers` write-back. -/
def updateUserBalanceFn (stored : Option (List User)) (userId : String)
    (newBalance : ℚ) : Option (List User) :=
  let p := getUsersFn stored
  match p.1.find? (fun u => u.id == userId) with
  | some _ => some (updateFirst p.1 userId newBalance)
  | none => p.2

/-- `db.getUserByRfid` (lines 622-625): read through `getUsers`, then first
match on `rfidCardId`. -/
def getUserByRfidFn (stored : Option (List User)) (rfidCardId : String) :
    Option User × Option (List User) :=
  let p := getUsersFn stored
  (p.1.find? (fun u => u.rfidCardId == rfidCardId), p.2)

/-- `db.createSession` (lines 652-656): push onto the stored session list. -/
def createSessionFn (sessions : List ChargingSession) (s : ChargingSession) :
    List ChargingSession :=
  sessions ++ [s]

/-- `db.updateSession` (lines 658-665): replace the first session whose `id`
matches by its field-merged update; the merge itself is abstracted as the
update function `f` (each call site supplies the concrete merged fields). -/
def updateSessionFn (sessions : List ChargingSession) (sessionId : String)
    (f : ChargingSession → ChargingSession) : List ChargingSession :=
  match sessions with
  | [] => []
  | s :: rest =>
    if s.id == sessionId then f s :: rest
    else s :: updateSessionFn rest sessionId f

/-- `db.getActiveSession` (lines 667-670): first stored session with status
`in_progress`. -/
def getActiveSessionFn (sessions : List ChargingSession) :
    Option ChargingSession :=
  sessions.find? (fun s => s.status == SessionStatus.in_progress)

/-- The `localStorage`-backed state used by the flows under study: the
`ev_charging_users` value, the session list and the transaction list. -/
structure Store where
  users : Option (List User)
  sessions : List ChargingSession
  transactions : List Transaction
deriving DecidableEq, Repr

/-- The empty browser storage. -/
def Store.empty : Store :=
  { users := none, sessions := [], transactions := [] }

/-- `scanRfid` of `AppContext` (`src/src/context/AppContext.tsx`, lines
99-109): resolve the scanned token through `db.getUserByRfid`; `token = none`
models a failed hardware read.  Returns the resolved user (the new
`currentUser` when found) and the store after the read-through. -/
def scanRfidCtx (st : Store) (token : Option String) : Option User × Store :=
  match token with
  | none => (none, st)
  | some t =>
    let p := getUserByRfidFn st.users t
    (p.1, { st with users := p.2 })

/-- `calculateTargetBattery` of `CostSelectionScreen` (`src/unnamed/part_005`,
lines 21-24), with the closed-over `currentBattery` and
`settings.fullChargeCost` made explicit parameters. -/
def calculateTargetBattery (currentBattery fullChargeCost : ℚ)
    (amount : ℚ) : ℚ :=
  min (currentBattery + (amount / fullChargeCost) * 100) 100

/-- `handleConfirm` of `CostSelectionScreen` (`src/unnamed/part_005`, lines
52-107).  Inputs: the store, the React state `selectedAmount` and
`currentUser`, the current `batteryStatus` sample, `settings.fullChargeCost`,
the generated session/transaction id and timestamp strings, and the boolean
result the relay-enable call `hardware.startCharging` would return.  The
source awaits `hardware.startCharging(targetBattery)` after all database
writes and discards its result, so `relayOk` does not influence the outcome.
Returns the new store and the created session (also the new `currentSession`
state), or no change when no amount is selected or no user is logged in. -/
def handleConfirm (st : Store) (selectedAmount : Option ℚ)
    (currentUser : Option User) (batteryStatus : Option BatteryStatus)
    (fullChargeCost : ℚ) (newId : String) (now : String) (relayOk : Bool) :
    Store × Option ChargingSession :=
  match selectedAmount, currentUser with
  | some amount, some user =>
    let newBalance := user.balance - amount
    let users1 := updateUserBalanceFn st.users user.id newBalance
    let currentBattery := jsOrQ (batteryStatus.map (fun b => b.percentage)) 0
    let session : ChargingSession :=
      { id := newId
        userId := user.id
        userName := user.name
        paidAmount := amount
        targetBattery := calculateTargetBattery currentBattery fullChargeCost amount
        startBattery := currentBattery
        endBattery := none
        energyDelivered := 0
        voltage := jsOrQ (batteryStatus.map (fun b => b.voltage)) 0
        current := jsOrQ (batteryStatus.map (fun b => b.current)) 0
        power := jsOrQ (batteryStatus.map (fun b => b.power)) 0
        startTime := now
        endTime := none
        status := SessionStatus.in_progress
        remainingBalance := newBalance }
    let txn : Transaction :=
      { id := newId
        userId := user.id
        userName := user.name
        type := "charge"
        amount := -amount
        timestamp := now
        description := "Charging session started"
        sessionId := some session.id }
    let st1 : Store :=
      { users := users1
        sessions := createSessionFn st.sessions session
        transactions := st.transactions ++ [txn] }
    let _ := relayOk
    (st1, some session)
  | _, _ => (st, none)

/-- Private mock state of `HardwareService`
(`src/src/services/hardware.ts`, lines 47-56): relay flag, mock battery
percentage, target, start timestamp in milliseconds, delivered energy in Wh. -/
structure HwState where
  chargingActive : Bool
  currentBattery : ℚ
  targetBattery : ℚ
  startTime : ℚ
  energyDelivered : ℚ
deriving DecidableEq, Repr

/-- `hardware.startCharging` in mock mode (lines 171-183): record the target
and start time, zero the energy counter, close the relay. -/
def hwStartCharging (s : HwState) (targetBattery : ℚ) (now : ℚ) : HwState :=
  { s with
    targetBattery := targetBattery, startTime := now,
    energyDelivered := 0, chargingActive := true }

/-- `hardware.simulateCharging` (lines 246-266), with `Date.now()` passed in
as `now` (milliseconds).  Energy is `2000 W × elapsed hours`; the battery
estimate rises by half of `energy / 5000 Wh × 100` capped at the target; when
the target is reached `stopCharging` opens the relay (its mock branch clears
`chargingActive`). -/
def simulateCharging (s : HwState) (now : ℚ) : HwState :=
  if s.chargingActive then
    let elapsedHours := (now - s.startTime) / (1000 * 60 * 60)
    let powerW : ℚ := 2000
    let energyWh := powerW * elapsedHours
    let batteryIncrease := (energyWh / 5000) * 100
    let newBattery :=
      min (s.currentBattery + batteryIncrease * (1 / 2)) s.targetBattery
    let s1 := { s with energyDelivered := energyWh, currentBattery := newBattery }
    if s1.currentBattery ≥ s1.targetBattery then
      { s1 with chargingActive := false }
    else s1
  else s

/-- `stopCharging` of `AppContext` (`src/src/context/AppContext.tsx`, lines
36-55) restricted to its session update: stamp the final status and end time,
freeze `endBattery` at `batteryStatus?.percentage || null` and
`energyDelivered` at `hardware.getEnergyDelivered()`. -/
def stopChargingUpdate (sess : ChargingSession) (status : SessionStatus)
    (batteryStatus : Option BatteryStatus) (energy : ℚ) (endTime : String) :
    ChargingSession :=
  { sess with
    status := status
    endTime := some endTime
    endBattery := jsOrNullQ (batteryStatus.map (fun b => b.percentage))
    energyDelivered := energy }

/-- One iteration of the metering interval of `AppContext` (lines 74-97),
restricted to its session effects.  Inputs: the `currentSession` React state,
the stored session list, the current `batteryStatus` sample, the value
`hardware.getEnergyDelivered()` returns this tick, and the timestamp string
used if the tick stops the session.  When the session is `in_progress` the
tick writes the live figures to the stored record, then compares
`batteryStatus?.percentage || 0` against `targetBattery` and calls
`stopCharging` with status completed when the target is reached; it
updates both the React state and the stored record. -/
def meteringTick (cur : Option ChargingSession)
    (sessions : List ChargingSession) (batteryStatus : Option BatteryStatus)
    (energy : ℚ) (endTime : String) :
    Option ChargingSession × List ChargingSession :=
  match cur with
  | none => (none, sessions)
  | some sess =>
    if sess.status = SessionStatus.in_progress then
      let sessions1 := updateSessionFn sessions sess.id (fun s =>
        { s with
          energyDelivered := energy
          current := jsOrQ (batteryStatus.map (fun b => b.current)) 0
          voltage := jsOrQ (batteryStatus.map (fun b => b.voltage)) 0
          power := jsOrQ (batteryStatus.map (fun b => b.power)) 0 })
      let battery := jsOrQ (batteryStatus.map (fun b => b.percentage)) 0
      if battery ≥ sess.targetBattery then
        let updated :=
          stopChargingUpdate sess SessionStatus.completed batteryStatus energy
            endTime
        (some updated, updateSessionFn sessions1 sess.id (fun _ => updated))
      else
        (some sess, sessions1)
    else (cur, sessions)

/-- State of the debounced identity source: last emitted token and the time it
was emitted (milliseconds). -/
structure DebounceState where
  lastToken : Option String
  lastTime : ℚ
deriving DecidableEq, Repr

/-- Modelled from the spec: the debounce step of the continuous reader
(`continuous_rfid_reader` in `backend/rfid_service.py`, which is not under
`src/`; its callers and documentation are).  Per spec section 4.1 and the
RFID documentation of the repository, a raw read emits one logical identity event
when its token differs from the last-seen token or the debounce window
(default 2000 ms) has elapsed since that token was last seen; otherwise the
read is ignored. -/
def debounceStep (window : ℚ) (s : DebounceState) (token : String)
    (now : ℚ) : Option String × DebounceState :=
  match s.lastToken with
  | none => (some token, { lastToken := some token, lastTime := now })
  | some lt =>
    if token ≠ lt ∨ now - s.lastTime ≥ window then
      (some token, { lastToken := some token, lastTime := now })
    else
      (none, s)

/-- Terminal statuses accepted by `stopCharging` (its TypeScript parameter
type is the union of the string literals completed and stopped). -/
inductive FinalStatus where
  | completed
  | stopped
deriving DecidableEq, Repr

/-- Embedding of a terminal status into `SessionStatus`. -/
def FinalStatus.toStatus : FinalStatus → SessionStatus
  | FinalStatus.completed => SessionStatus.completed
  | FinalStatus.stopped => SessionStatus.stopped

/-- The session-affecting operations of the core: a session creation through
the cost-confirmation flow (`handleConfirm`) and a finalization of a stored
session (`stopCharging` / the explicit-stop handler, both of which write a
terminal status through `db.updateSession`). -/
inductive Op where
  | create (user : User) (amount : ℚ) (batteryStatus : Option BatteryStatus)
      (fullChargeCost : ℚ) (newId : String) (now : String) (relayOk : Bool)
  | finalize (sessionId : String) (fs : FinalStatus)
      (batteryStatus : Option BatteryStatus) (energy : ℚ) (endTime : String)

/-- Effect of one operation on the store. -/
def applyOp (st : Store) : Op → Store
  | Op.create u amount bs fc newId now relayOk =>
    (handleConfirm st (some amount) (some u) bs fc newId now relayOk).1
  | Op.finalize sid fs bs energy endTime =>
    { st with sessions := updateSessionFn st.sessions sid (fun s =>
        stopChargingUpdate s fs.toStatus bs energy endTime) }

/-- Run a sequence of operations left to right. -/
def runOps (st : Store) : List Op → Store
  | [] => st
  | op :: rest => runOps (applyOp st op) rest

/-- Number of stored sessions with status `in_progress`. -/
def countInProgress (sessions : List ChargingSession) : Nat :=
  (sessions.filter (fun s => s.status == SessionStatus.in_progress)).length

/-- A sequence of operations is guarded from a given store when every
`create` is executed only while no stored session is `in_progress` — the
discipline the single-circuit invariant requires of callers, since
`db.createSession` itself never consults `db.getActiveSession`. -/
def Guarded (st : Store) : List Op → Prop
  | [] => True
  | op :: rest =>
    (∀ u a bs fc i n r, op = Op.create u a bs fc i n r →
      countInProgress st.sessions = 0) ∧ Guarded (applyOp st op) rest

/-- The formula the spec states for the target battery level (section 8 of the
spec): `min(startBattery + (paidAmount / fullChargeCost) * 100, 100)`.  Kept
separate from `calculateTargetBattery` so the two can be compared. -/
def targetBattery_specFormula (startBattery paidAmount fullChargeCost : ℚ) :
    ℚ :=
  min (startBattery + (paidAmount / fullChargeCost) * 100) 100

/-- Calls into the relay capability of `HardwareService`. -/
inductive HwCall where
  | relayEnable (targetBattery : ℚ)
  | relayDisable
deriving DecidableEq, Repr

/-- `handleAmountSelect` of `CostSelectionScreen` (`src/unnamed/part_005`,
lines 28-35) as a transition on the `selectedAmount` state: an amount above
the balance of the user is rejected with an alert and leaves the selection
unchanged, otherwise it becomes the selection.  (`handleCustomAmount` applies
the same guard after requiring the parsed amount to be positive.) -/
def handleAmountSelect (balance : ℚ) (sel : Option ℚ) (amount : ℚ) :
    Option ℚ :=
  if amount > balance then sel else some amount

/-- The relay calls `handleConfirm` issues: with a selected amount and a
logged-in user it calls `hardware.startCharging(targetBattery)` once;
otherwise it returns before reaching the hardware. -/
def confirmRelayCalls (sel : Option ℚ) (currentUser : Option User)
    (batteryStatus : Option BatteryStatus) (fullChargeCost : ℚ) :
    List HwCall :=
  match sel, currentUser with
  | some amount, some _ =>
    [HwCall.relayEnable (calculateTargetBattery
      (jsOrQ (batteryStatus.map (fun b => b.percentage)) 0) fullChargeCost
      amount)]
  | _, _ => []

/-- Relay calls made as a consequence of one identity presentation: the token
is resolved through `scanRfid`; when no user is found the flow ends on the
auth screen; otherwise the user may attempt any sequence of amount
selections before pressing confirm, which issues the relay calls of
`handleConfirm` for the selection that survived. -/
def presentationCalls (st : Store) (token : Option String)
    (amounts : List ℚ) (batteryStatus : Option BatteryStatus)
    (fullChargeCost : ℚ) : List HwCall :=
  match (scanRfidCtx st token).1 with
  | none => []
  | some u =>
    confirmRelayCalls (amounts.foldl (handleAmountSelect u.balance) none)
      (some u) batteryStatus fullChargeCost

/-- A concrete guarded operation sequence: create, finalize, create again. -/
def witnessOps : List Op :=
  [Op.create lalitUser 40 none 100 "s1" "t1" true,
   Op.finalize "s1" FinalStatus.stopped none 5 "t2",
   Op.create fateenUser 60 none 100 "s3" "t3" false]

/-- A concrete in-progress session whose remaining balance is exhausted while
its battery is still below target. -/
def exhaustedSession : ChargingSession :=
  { id := "s1", userId := "1", userName := "Lalit Nikumbh", paidAmount := 40,
    targetBattery := 75, startBattery := 35, endBattery := none,
    energyDelivered := 10, voltage := 48, current := 40, power := 1920,
    startTime := "t1", endTime := none,
    status := SessionStatus.in_progress, remainingBalance := -5 }

/-- A concrete charging hardware state: relay closed at time 0, battery 35,
target 75. -/
def hwWitnessState : HwState :=
  { chargingActive := true, currentBattery := 35, targetBattery := 75,
    startTime := 0, energyDelivered := 0 }

/-- A concrete battery sample reading 50 percent. -/
def batterySample50 : BatteryStatus :=
  { percentage := 50, voltage := 48, current := 40, power := 1920 }

/-- A concrete battery sample reading 80 percent. -/
def batterySample80 : BatteryStatus :=
  { percentage := 80, voltage := 48, current := 40, power := 1920 }

/-! ### Lemmas about `db.getUsers` -/

/-- Well-formedness of a stored user list as `db.getUsers` guarantees it: the
purged names are absent and the three default names are present. -/
def goodNames (l : List User) : Prop :=
  "John Doe" ∉ l.map (fun u => u.name) ∧
  "Jane Smith" ∉ l.map (fun u => u.name) ∧
  ∀ d ∈ DEFAULT_USERS, d.name ∈ l.map (fun u => u.name)

theorem keepUser_of_goodNames {l : List User} (h : goodNames l) :
    ∀ u ∈ l, keepUser u = true := by
  intro u hu
  simp only [keepUser, Bool.and_eq_true, Bool.not_eq_true', beq_eq_false_iff_ne]
  refine ⟨fun hn => h.1 ?_, fun hn => h.2.1 ?_⟩
  · exact List.mem_map.mpr ⟨u, hu, hn⟩
  · exact List.mem_map.mpr ⟨u, hu, hn⟩

theorem length_ge_three_of_goodNames {l : List User} (h : goodNames l) :
    3 ≤ l.length := by
  have h1 : "Lalit Nikumbh" ∈ l.map (fun u => u.name) :=
    h.2.2 lalitUser (by simp [DEFAULT_USERS])
  have h2 : "Fateen Shaikh" ∈ l.map (fun u => u.name) :=
    h.2.2 fateenUser (by simp [DEFAULT_USERS])
  have h3 : "Nishad Deshmukh" ∈ l.map (fun u => u.name) :=
    h.2.2 nishadUser (by simp [DEFAULT_USERS])
  have hnd : (["Lalit Nikumbh", "Fateen Shaikh", "Nishad Deshmukh"] :
      List String).Nodup := by decide
  have hsub : (["Lalit Nikumbh", "Fateen Shaikh", "Nishad Deshmukh"] :
      List String) ⊆ l.map (fun u => u.name) := by
    intro x hx
    simp only [List.mem_cons, List.not_mem_nil, or_false] at hx
    rcases hx with rfl | rfl | rfl <;> assumption
  have hsp := List.subperm_of_subset hnd hsub
  have := hsp.length_le
  simpa using this

theorem goodNames_filter_keep (l : List User) :
    "John Doe" ∉ (l.filter keepUser).map (fun u => u.name) ∧
    "Jane Smith" ∉ (l.filter keepUser).map (fun u => u.name) := by
  constructor <;>
  · intro hmem
    rcases List.mem_map.mp hmem with ⟨u, hu, hname⟩
    have hk := List.of_mem_filter hu
    simp only [keepUser, Bool.and_eq_true, Bool.not_eq_true',
      beq_eq_false_iff_ne] at hk
    first
      | exact hk.1 hname
      | exact hk.2 hname

theorem goodNames_DEFAULT : goodNames DEFAULT_USERS := by
  refine ⟨by decide, by decide, ?_⟩
  intro d hd
  exact List.mem_map.mpr ⟨d, hd, rfl⟩

theorem mem_names_of_missing_nil {users : List User}
    (hmiss : ¬ (DEFAULT_USERS.filter
      (fun d => !(((users.filter keepUser).map (fun u => u.name)).contains
        d.name))).length > 0) :
    ∀ d ∈ DEFAULT_USERS,
      d.name ∈ (users.filter keepUser).map (fun u => u.name) := by
  intro d hd
  have hnil : DEFAULT_USERS.filter
      (fun d => !(((users.filter keepUser).map (fun u => u.name)).contains
        d.name)) = [] :=
    List.length_eq_zero.mp (Nat.eq_zero_of_not_pos hmiss)
  have hth := List.filter_eq_nil_iff.mp hnil d hd
  simp only [Bool.not_eq_true', Bool.not_eq_false] at hth
  exact List.mem_of_elem_eq_true hth

theorem getUsersFn_good (stored : Option (List User)) :
    goodNames (getUsersFn stored).1 := by
  match stored with
  | none => exact goodNames_DEFAULT
  | some users =>
    simp only [getUsersFn]
    split
    · -- merged branch: some default users were missing and are re-appended
      refine ⟨?_, ?_, ?_⟩
      · intro hmem
        rw [List.map_append, List.mem_append] at hmem
        rcases hmem with hmem | hmem
        · exact (goodNames_filter_keep users).1 hmem
        · rcases List.mem_map.mp hmem with ⟨d, hd, hname⟩
          have hd' := List.mem_of_mem_filter hd
          revert hname
          fin_cases hd' <;> decide
      · intro hmem
        rw [List.map_append, List.mem_append] at hmem
        rcases hmem with hmem | hmem
        · exact (goodNames_filter_keep users).2 hmem
        · rcases List.mem_map.mp hmem with ⟨d, hd, hname⟩
          have hd' := List.mem_of_mem_filter hd
          revert hname
          fin_cases hd' <;> decide
      · intro d hd
        rw [List.map_append, List.mem_append]
        by_cases hc :
            ((users.filter keepUser).map (fun u => u.name)).contains d.name
              = true
        · exact Or.inl (List.mem_of_elem_eq_true hc)
        · refine Or.inr (List.mem_map.mpr ⟨d, ?_, rfl⟩)
          refine List.mem_filter.mpr ⟨hd, ?_⟩
          simpa using hc
    · -- no default user is missing; the two inner branches
      rename_i hmiss
      split
      · -- some users were purged, the cleaned list is saved
        exact ⟨(goodNames_filter_keep users).1,
          (goodNames_filter_keep users).2, mem_names_of_missing_nil hmiss⟩
      · split
        · -- fewer than three users remain: reset to the defaults
          exact goodNames_DEFAULT
        · -- unchanged
          exact ⟨(goodNames_filter_keep users).1,
            (goodNames_filter_keep users).2, mem_names_of_missing_nil hmiss⟩

theorem getUsersFn_snd (stored : Option (List User)) :
    (getUsersFn stored).2 = some (getUsersFn stored).1 := by
  match stored with
  | none => rfl
  | some users =>
    simp only [getUsersFn]
    split
    · rfl
    · split
      · rfl
      · split
        · rfl
        · rename_i hlen _
          have heq : users.filter keepUser = users :=
            (List.filter_sublist users).eq_of_length (not_ne_iff.mp hlen)
          rw [heq]

theorem getUsersFn_fixpoint {l : List User} (h : goodNames l) :
    getUsersFn (some l) = (l, some l) := by
  have hfilter : l.filter keepUser = l :=
    List.filter_eq_self.mpr (keepUser_of_goodNames h)
  have hmiss : DEFAULT_USERS.filter
      (fun d => !((l.map (fun u => u.name)).contains d.name)) = [] := by
    refine List.filter_eq_nil_iff.mpr ?_
    intro d hd
    simp only [Bool.not_eq_true', Bool.not_eq_false]
    exact List.elem_eq_true_of_mem (h.2.2 d hd)
  have h3 : ¬ l.length < 3 := Nat.not_lt.mpr (length_ge_three_of_goodNames h)
  simp only [getUsersFn, hfilter, hmiss]
  simp [h3]

theorem getUsersFn_stable (stored : Option (List User)) :
    getUsersFn ((getUsersFn stored).2) =
      ((getUsersFn stored).1, (getUsersFn stored).2) := by
  rw [getUsersFn_snd stored]
  rw [getUsersFn_fixpoint (getUsersFn_good stored)]

/-! ### Lemmas about `db.updateUserBalance` -/

theorem updateFirst_map_name (l : List User) (userId : String) (nb : ℚ) :
    (updateFirst l userId nb).map (fun u => u.name) =
      l.map (fun u => u.name) := by
  induction l with
  | nil => rfl
  | cons u rest ih =>
    simp only [updateFirst]
    split
    · simp
    · simp [ih]

theorem goodNames_updateFirst {l : List User} (h : goodNames l)
    (userId : String) (nb : ℚ) : goodNames (updateFirst l userId nb) := by
  unfold goodNames
  rw [updateFirst_map_name]
  exact h

theorem find?_id_updateFirst {l : List User} {u : User} (nb : ℚ)
    (h : l.find? (fun x => x.id == u.id) = some u) :
    (updateFirst l u.id nb).find? (fun x => x.id == u.id) =
      some { u with balance := nb } := by
  induction l with
  | nil => simp at h
  | cons v rest ih =>
    simp only [updateFirst]
    by_cases hv : (v.id == u.id) = true
    · have hh : List.find? (fun x => x.id == u.id) (v :: rest) = some v :=
        List.find?_cons_of_pos rest hv
      rw [hh] at h
      have hvu : v = u := Option.some.inj h
      subst hvu
      rw [if_pos hv]
      exact List.find?_cons_of_pos rest hv
    · have hh : List.find? (fun x => x.id == u.id) (v :: rest) =
          List.find? (fun x => x.id == u.id) rest :=
        List.find?_cons_of_neg rest hv
      rw [hh] at h
      rw [if_neg hv]
      have hh2 : List.find? (fun x => x.id == u.id)
          (v :: updateFirst rest u.id nb) =
          List.find? (fun x => x.id == u.id) (updateFirst rest u.id nb) :=
        List.find?_cons_of_neg _ hv
      rw [hh2]
      exact ih h

theorem find?_rfid_updateFirst {l : List User} {u : User} (nb : ℚ)
    (hmem : u ∈ l)
    (hid : (l.map (fun x => x.id)).Nodup)
    (hrfid : (l.map (fun x => x.rfidCardId)).Nodup) :
    (updateFirst l u.id nb).find? (fun x => x.rfidCardId == u.rfidCardId) =
      some { u with balance := nb } := by
  induction l with
  | nil => simp at hmem
  | cons v rest ih =>
    simp only [List.map_cons, List.nodup_cons] at hid hrfid
    simp only [updateFirst]
    by_cases hv : (v.id == u.id) = true
    · have hvu : v = u := by
        rcases List.mem_cons.mp hmem with h1 | h1
        · exact h1.symm
        · exfalso
          refine hid.1 ?_
          have : v.id = u.id := by simpa using hv
          rw [this]
          exact List.mem_map.mpr ⟨u, h1, rfl⟩
      subst hvu
      rw [if_pos hv]
      exact List.find?_cons_of_pos rest (by simp)
    · have hur : u ∈ rest := by
        rcases List.mem_cons.mp hmem with h1 | h1
        · exact absurd (by rw [h1]; simp) hv
        · exact h1
      have hvr : ¬ ((fun x => x.rfidCardId == u.rfidCardId) v) = true := by
        intro hcontra
        refine hrfid.1 ?_
        have : v.rfidCardId = u.rfidCardId := by simpa using hcontra
        rw [this]
        exact List.mem_map.mpr ⟨u, hur, rfl⟩
      rw [if_neg hv]
      have hh : List.find? (fun x => x.rfidCardId == u.rfidCardId)
          (v :: updateFirst rest u.id nb) =
          List.find? (fun x => x.rfidCardId == u.rfidCardId)
            (updateFirst rest u.id nb) :=
        List.find?_cons_of_neg _ hvr
      rw [hh]
      exact ih hur hid.2 hrfid.2

/-! ### Lemmas about sessions, the metering simulation, and selections -/

theorem countInProgress_nil : countInProgress [] = 0 := rfl

theorem countInProgress_cons (s : ChargingSession)
    (l : List ChargingSession) :
    countInProgress (s :: l) =
      (if s.status = SessionStatus.in_progress then 1 else 0) +
        countInProgress l := by
  by_cases h : s.status = SessionStatus.in_progress <;>
    simp [countInProgress, List.filter_cons, h, Nat.add_comm]

theorem countInProgress_append (l1 l2 : List ChargingSession) :
    countInProgress (l1 ++ l2) = countInProgress l1 + countInProgress l2 := by
  simp [countInProgress, List.filter_append]

theorem countInProgress_updateSession_le (l : List ChargingSession)
    (sid : String) (f : ChargingSession → ChargingSession)
    (hf : ∀ s, (f s).status ≠ SessionStatus.in_progress) :
    countInProgress (updateSessionFn l sid f) ≤ countInProgress l := by
  induction l with
  | nil => exact Nat.le_refl _
  | cons s rest ih =>
    simp only [updateSessionFn]
    split
    · rw [countInProgress_cons, countInProgress_cons, if_neg (hf s)]
      rw [Nat.zero_add]
      exact Nat.le_add_left _ _
    · rw [countInProgress_cons, countInProgress_cons]
      exact Nat.add_le_add_left ih _

theorem guarded_invariant (ops : List Op) : ∀ (st : Store),
    countInProgress st.sessions ≤ 1 → Guarded st ops →
    countInProgress (runOps st ops).sessions ≤ 1 := by
  induction ops with
  | nil => intro st h _; exact h
  | cons op rest ih =>
    intro st h hg
    refine ih (applyOp st op) ?_ hg.2
    cases op with
    | create u a bs fc i n r =>
      have h0 : countInProgress st.sessions = 0 := hg.1 u a bs fc i n r rfl
      simp only [applyOp, handleConfirm, createSessionFn]
      rw [countInProgress_append, h0]
      simp [countInProgress]
    | finalize sid fs bs energy endTime =>
      refine le_trans (countInProgress_updateSession_le _ _ _ ?_) h
      intro s
      cases fs <;> simp [stopChargingUpdate, FinalStatus.toStatus]

theorem simulateCharging_inactive {s : HwState} (h : s.chargingActive = false)
    (now : ℚ) : simulateCharging s now = s := by
  simp [simulateCharging, h]

theorem simulateCharging_energy {s : HwState} (h : s.chargingActive = true)
    (now : ℚ) :
    (simulateCharging s now).energyDelivered =
      2000 * ((now - s.startTime) / (1000 * 60 * 60)) := by
  simp only [simulateCharging, h, if_true]
  split <;> rfl

theorem simulateCharging_battery {s : HwState} (h : s.chargingActive = true)
    (now : ℚ) :
    (simulateCharging s now).currentBattery =
      min (s.currentBattery +
        ((2000 * ((now - s.startTime) / (1000 * 60 * 60))) / 5000) * 100 *
          (1 / 2)) s.targetBattery := by
  simp only [simulateCharging, h, if_true]
  split <;> rfl

theorem simulateCharging_startTime {s : HwState} (now : ℚ) :
    (simulateCharging s now).startTime = s.startTime := by
  simp only [simulateCharging]
  split
  · split <;> rfl
  · rfl

theorem simulateCharging_target {s : HwState} (now : ℚ) :
    (simulateCharging s now).targetBattery = s.targetBattery := by
  simp only [simulateCharging]
  split
  · split <;> rfl
  · rfl

theorem foldl_select_none {balance : ℚ} (hbal : balance ≤ 0)
    (amounts : List ℚ) (hpos : ∀ a ∈ amounts, 0 < a) :
    amounts.foldl (handleAmountSelect balance) none = none := by
  induction amounts with
  | nil => rfl
  | cons a rest ih =>
    have ha : a > balance :=
      lt_of_le_of_lt hbal (hpos a (List.mem_cons_self a rest))
    rw [List.foldl_cons]
    rw [show handleAmountSelect balance none a = none from if_pos ha]
    exact ih (fun x hx => hpos x (List.mem_cons_of_mem a hx))

theorem find?_id_of_mem_nodup {l : List User} {u : User}
    (hid : (l.map (fun x => x.id)).Nodup) (hmem : u ∈ l) :
    l.find? (fun x => x.id == u.id) = some u := by
  induction l with
  | nil => simp at hmem
  | cons v rest ih =>
    simp only [List.map_cons, List.nodup_cons] at hid
    rcases List.mem_cons.mp hmem with h1 | h1
    · subst h1
      exact List.find?_cons_of_pos rest (by simp)
    · have hv : ¬ ((fun x => x.id == u.id) v) = true := by
        intro hcontra
        refine hid.1 ?_
        have : v.id = u.id := by simpa using hcontra
        rw [this]
        exact List.mem_map.mpr ⟨u, h1, rfl⟩
      have hh : List.find? (fun x => x.id == u.id) (v :: rest) =
          List.find? (fun x => x.id == u.id) rest :=
        List.find?_cons_of_neg rest hv
      rw [hh]
      exact ih hid.2 h1

theorem updateUserBalanceFn_found {stored : Option (List User)} {u : User}
    (nb : ℚ)
    (hfind : (getUsersFn stored).1.find? (fun x => x.id == u.id) = some u) :
    updateUserBalanceFn stored u.id nb =
      some (updateFirst (getUsersFn stored).1 u.id nb) := by
  simp only [updateUserBalanceFn, hfind]

theorem getUsersFn_after_update (stored : Option (List User))
    (userId : String) (nb : ℚ) :
    getUsersFn (some (updateFirst (getUsersFn stored).1 userId nb)) =
      (updateFirst (getUsersFn stored).1 userId nb,
        some (updateFirst (getUsersFn stored).1 userId nb)) :=
  getUsersFn_fixpoint
    (goodNames_updateFirst (getUsersFn_good stored) userId nb)

theorem handleConfirm_balance_read (st : Store) (u : User) (amount : ℚ)
    (bs : Option BatteryStatus) (fc : ℚ) (newId now : String)
    (relayOk : Bool)
    (hfind : (getUsersFn st.users).1.find? (fun x => x.id == u.id) = some u) :
    (getUsersFn (handleConfirm st (some amount) (some u) bs fc newId now
        relayOk).1.users).1.find? (fun x => x.id == u.id) =
      some { u with balance := u.balance - amount } := by
  have husers : (handleConfirm st (some amount) (some u) bs fc newId now
      relayOk).1.users =
      some (updateFirst (getUsersFn st.users).1 u.id (u.balance - amount)) :=
    updateUserBalanceFn_found _ hfind
  rw [husers, getUsersFn_after_update]
  exact find?_id_updateFirst _ hfind

/-! ### Claims -/

/-- C7: the target battery level is computed as
`min(startBattery + (paidAmount / fullChargeCost) * 100, 100)`, and for
`startBattery = 35`, `paidAmount = 40`, `fullChargeCost = 100` the computed
target is 75. -/
theorem claim_C7 :
    (∀ startBattery fullChargeCost amount : ℚ,
      calculateTargetBattery startBattery fullChargeCost amount =
        targetBattery_specFormula startBattery amount fullChargeCost) ∧
    calculateTargetBattery 35 100 40 = 75 := by
  constructor
  · intro a b c
    rfl
  · rw [calculateTargetBattery]
    norm_num

/-- C9: two raw reads of the same identity token arriving within the debounce
window yield exactly one emitted IdentityEvent: the first read (of a token
that differs from the last-seen one) emits, the second is suppressed. -/
theorem claim_C9 (window : ℚ) (s0 : DebounceState) (token : String)
    (t1 t2 : ℚ) (hfresh : s0.lastToken ≠ some token)
    (hwin : t2 - t1 < window) :
    (debounceStep window s0 token t1).1 = some token ∧
    (debounceStep window (debounceStep window s0 token t1).2 token t2).1 =
      none ∧
    ((debounceStep window s0 token t1).1.toList ++
      (debounceStep window (debounceStep window s0 token t1).2 token
        t2).1.toList).length = 1 := by
  have hstep1 : debounceStep window s0 token t1 =
      (some token, { lastToken := some token, lastTime := t1 }) := by
    match hs : s0.lastToken with
    | none => simp [debounceStep, hs]
    | some lt =>
      have hne : token ≠ lt := by
        intro hcontra
        exact hfresh (by rw [hs, hcontra])
      simp [debounceStep, hs, hne]
  have hstep2 : debounceStep window
      (debounceStep window s0 token t1).2 token t2 =
      (none, (debounceStep window s0 token t1).2) := by
    rw [hstep1]
    have hlt : ¬ (token ≠ token ∨ t2 - t1 ≥ window) := by
      push_neg
      exact ⟨rfl, hwin⟩
    simp only [debounceStep]
    rw [if_neg hlt]
  rw [hstep2, hstep1]
  exact ⟨rfl, rfl, rfl⟩

/-- C9 witness: a concrete double read of token RFID001 at 1000 ms and
2500 ms with a 2000 ms window emits exactly one event. -/
theorem claim_C9_witness :
    (({ lastToken := none, lastTime := 0 } : DebounceState).lastToken ≠
      some "RFID001") ∧
    (2500 : ℚ) - 1000 < 2000 ∧
    (debounceStep 2000 { lastToken := none, lastTime := 0 } "RFID001"
      1000).1 = some "RFID001" ∧
    (debounceStep 2000 (debounceStep 2000
      { lastToken := none, lastTime := 0 } "RFID001" 1000).2 "RFID001"
      2500).1 = none :=
  ⟨by decide, by norm_num,
    (claim_C9 2000 { lastToken := none, lastTime := 0 } "RFID001" 1000 2500
      (by decide) (by norm_num)).1,
    (claim_C9 2000 { lastToken := none, lastTime := 0 } "RFID001" 1000 2500
      (by decide) (by norm_num)).2.1⟩

/-- C10: for every stored user list, `db.getUsers` returns a list that never
contains a user named John Doe or Jane Smith, always contains users carrying
the three default names, writes the returned list back to the store, and
re-provisions any missing default user as the hardcoded record (with its
hardcoded default balance). -/
theorem claim_C10 (stored : Option (List User)) :
    "John Doe" ∉ (getUsersFn stored).1.map (fun u => u.name) ∧
    "Jane Smith" ∉ (getUsersFn stored).1.map (fun u => u.name) ∧
    (∀ d ∈ DEFAULT_USERS,
      d.name ∈ (getUsersFn stored).1.map (fun u => u.name)) ∧
    (getUsersFn stored).2 = some (getUsersFn stored).1 ∧
    (∀ d ∈ DEFAULT_USERS,
      d.name ∉ (stored.getD []).map (fun u => u.name) →
        d ∈ (getUsersFn stored).1) := by
  refine ⟨(getUsersFn_good stored).1, (getUsersFn_good stored).2.1,
    (getUsersFn_good stored).2.2, getUsersFn_snd stored, ?_⟩
  intro d hd hnm
  match stored with
  | none => simpa [getUsersFn] using hd
  | some users =>
    have hnf : d.name ∉ (users.filter keepUser).map (fun u => u.name) := by
      intro hcontra
      refine hnm ?_
      exact List.map_subset _ (List.filter_subset' users) hcontra
    have hnc : ¬ (((users.filter keepUser).map
        (fun u => u.name)).contains d.name) = true := by
      intro hcontra
      exact hnf (List.mem_of_elem_eq_true hcontra)
    have hdmiss : d ∈ DEFAULT_USERS.filter
        (fun d => !(((users.filter keepUser).map
          (fun u => u.name)).contains d.name)) := by
      refine List.mem_filter.mpr ⟨hd, ?_⟩
      simpa using hnc
    have hmisspos : (DEFAULT_USERS.filter
        (fun d => !(((users.filter keepUser).map
          (fun u => u.name)).contains d.name))).length > 0 :=
      List.length_pos.mpr (List.ne_nil_of_mem hdmiss)
    simp only [getUsersFn]
    split
    · exact List.mem_append.mpr (Or.inr hdmiss)
    · rename_i hneg
      exact absurd hmisspos hneg

/-- C5: across a pair of consecutive metering ticks of a charging session
(tick times `t1 ≤ t2`, both after the recorded start time, relay closed),
both the accumulated `energyDelivered` and the battery estimate are
monotonically non-decreasing. -/
theorem claim_C5 (s : HwState) (t1 t2 : ℚ)
    (hactive : s.chargingActive = true)
    (h0 : s.startTime ≤ t1) (h12 : t1 ≤ t2) :
    (simulateCharging s t1).energyDelivered ≤
      (simulateCharging (simulateCharging s t1) t2).energyDelivered ∧
    (simulateCharging s t1).currentBattery ≤
      (simulateCharging (simulateCharging s t1) t2).currentBattery := by
  cases hact1 : (simulateCharging s t1).chargingActive with
  | false =>
    rw [simulateCharging_inactive hact1 t2]
    exact ⟨le_refl _, le_refl _⟩
  | true =>
    constructor
    · rw [simulateCharging_energy hact1 t2, simulateCharging_startTime t1,
        simulateCharging_energy hactive t1]
      have hden : ((1000 : ℚ) * 60 * 60) = 3600000 := by norm_num
      rw [hden]
      linarith
    · rw [simulateCharging_battery hact1 t2, simulateCharging_startTime t1,
        simulateCharging_target t1, simulateCharging_battery hactive t1]
      have ht2 : (0 : ℚ) ≤ t2 - s.startTime := by linarith
      have h2 : (0 : ℚ) ≤
          (2000 * ((t2 - s.startTime) / (1000 * 60 * 60))) / 5000 * 100 *
            (1 / 2) :=
        mul_nonneg (mul_nonneg (div_nonneg
          (mul_nonneg (by norm_num) (div_nonneg ht2 (by norm_num)))
          (by norm_num)) (by norm_num)) (by norm_num)
      refine le_min ?_ (min_le_right _ _)
      linarith

/-- C5 witness: a session that starts at time 0 with battery 35 and target
75; at ticks 3600000 ms and 7200000 ms energy and battery both rise. -/
theorem claim_C5_witness :
    hwWitnessState.chargingActive = true ∧
    hwWitnessState.startTime ≤ 3600000 ∧
    (3600000 : ℚ) ≤ 7200000 ∧
    ((simulateCharging hwWitnessState 3600000).energyDelivered ≤
      (simulateCharging (simulateCharging hwWitnessState 3600000)
        7200000).energyDelivered ∧
    (simulateCharging hwWitnessState 3600000).currentBattery ≤
      (simulateCharging (simulateCharging hwWitnessState 3600000)
        7200000).currentBattery) :=
  ⟨rfl, by norm_num [hwWitnessState], by norm_num,
    claim_C5 hwWitnessState 3600000 7200000 rfl
      (by norm_num [hwWitnessState]) (by norm_num)⟩

/-- C6: a presentation whose outcome is a rejection (unknown token, or known
token with balance at most zero) never leads to a relay-enable call, for any
sequence of positive amount-selection attempts. -/
theorem claim_C6 (st : Store) (token : Option String) (amounts : List ℚ)
    (bs : Option BatteryStatus) (fc : ℚ)
    (hpos : ∀ a ∈ amounts, 0 < a)
    (hrej : (scanRfidCtx st token).1 = none ∨
      ∃ u, (scanRfidCtx st token).1 = some u ∧ u.balance ≤ 0) :
    ∀ t, HwCall.relayEnable t ∉ presentationCalls st token amounts bs fc := by
  intro t
  rcases hrej with hnone | ⟨u, hu, hbal⟩
  · simp [presentationCalls, hnone]
  · have hcalls : presentationCalls st token amounts bs fc = [] := by
      simp only [presentationCalls]
      rw [hu]
      show confirmRelayCalls
        (List.foldl (handleAmountSelect u.balance) none amounts) (some u) bs
          fc = []
      rw [foldl_select_none hbal amounts hpos]
      rfl
    simp [hcalls]

/-- C6 witness: presenting the unknown token NOPE over the default store,
then attempting to select 20, never enables the relay. -/
theorem claim_C6_witness :
    (∀ a ∈ ([20] : List ℚ), 0 < a) ∧
    (scanRfidCtx Store.empty (some "NOPE")).1 = none ∧
    HwCall.relayEnable 75 ∉
      presentationCalls Store.empty (some "NOPE") [20] none 100 :=
  ⟨by decide, by decide,
    claim_C6 Store.empty (some "NOPE") [20] none 100 (by decide)
      (Or.inl (by decide)) 75⟩

/-- C1 counterexample: two cost-confirmations in a row, the second while the
first session is still `in_progress`, leave two `in_progress` sessions in the
store: `handleConfirm` calls `db.createSession` without consulting
`db.getActiveSession`, so the attempt does produce a second `in_progress`
session. -/
theorem claim_C1_counterexample :
    ¬ countInProgress (runOps Store.empty
      [Op.create lalitUser 40 none 100 "s1" "t1" true,
       Op.create lalitUser 20 none 100 "s2" "t2" true]).sessions ≤ 1 := by
  decide

/-- C1 amended: the store itself does not enforce the single-session
invariant; it holds exactly for operation sequences in which every session
creation is executed while no stored session is `in_progress` (the guarded
discipline of the UI flow).  For every such guarded sequence, at most one
session is `in_progress` at any instant. -/
theorem claim_C1 (st : Store) (ops : List Op)
    (hinv : countInProgress st.sessions ≤ 1) (hg : Guarded st ops) :
    countInProgress (runOps st ops).sessions ≤ 1 :=
  guarded_invariant ops st hinv hg

theorem witnessOps_guarded : Guarded Store.empty witnessOps := by
  refine ⟨?_, ?_, ?_, trivial⟩
  · intro u a bs fc i n r h
    rfl
  · intro u a bs fc i n r h
    exact Op.noConfusion h
  · intro u a bs fc i n r h
    decide

/-- C1 witness: the guarded sequence create / finalize / create keeps at most
one `in_progress` session. -/
theorem claim_C1_witness :
    countInProgress Store.empty.sessions ≤ 1 ∧
    Guarded Store.empty witnessOps ∧
    countInProgress (runOps Store.empty witnessOps).sessions ≤ 1 :=
  ⟨by decide, witnessOps_guarded,
    claim_C1 Store.empty witnessOps (by decide) witnessOps_guarded⟩

/-- C2: for a logged-in user whose stored record matches and a confirmed
amount within balance, `handleConfirm` creates the session record and debits
exactly that amount in the same step: the stored balance afterwards is the
old balance minus the amount, the created session carries the amount and the
new balance, and re-delivering an identity event (a `scanRfid` resolution,
with any token) afterwards leaves the debited balance unchanged. -/
theorem claim_C2 (st : Store) (u : User) (amount : ℚ)
    (bs : Option BatteryStatus) (fc : ℚ) (newId now : String)
    (relayOk : Bool) (token : Option String)
    (_hamount : amount ≤ u.balance)
    (hfind : (getUsersFn st.users).1.find? (fun x => x.id == u.id) = some u) :
    (∃ sess, (handleConfirm st (some amount) (some u) bs fc newId now
        relayOk).2 = some sess ∧
      (handleConfirm st (some amount) (some u) bs fc newId now
        relayOk).1.sessions = st.sessions ++ [sess] ∧
      sess.paidAmount = amount ∧
      sess.status = SessionStatus.in_progress ∧
      sess.remainingBalance = u.balance - amount) ∧
    (getUsersFn (handleConfirm st (some amount) (some u) bs fc newId now
        relayOk).1.users).1.find? (fun x => x.id == u.id) =
      some { u with balance := u.balance - amount } ∧
    (getUsersFn (scanRfidCtx (handleConfirm st (some amount) (some u) bs fc
        newId now relayOk).1 token).2.users).1.find?
        (fun x => x.id == u.id) =
      some { u with balance := u.balance - amount } := by
  refine ⟨⟨_, rfl, rfl, rfl, rfl, rfl⟩,
    handleConfirm_balance_read st u amount bs fc newId now relayOk hfind, ?_⟩
  match token with
  | none =>
    exact handleConfirm_balance_read st u amount bs fc newId now relayOk hfind
  | some tk =>
    have husers : (handleConfirm st (some amount) (some u) bs fc newId now
        relayOk).1.users =
        some (updateFirst (getUsersFn st.users).1 u.id (u.balance - amount)) :=
      updateUserBalanceFn_found _ hfind
    have hfix := getUsersFn_after_update st.users u.id (u.balance - amount)
    show (getUsersFn ((getUsersFn (handleConfirm st (some amount) (some u) bs
        fc newId now relayOk).1.users).2)).1.find? (fun x => x.id == u.id) =
      some { u with balance := u.balance - amount }
    rw [husers, hfix]
    show (getUsersFn (some (updateFirst (getUsersFn st.users).1 u.id
        (u.balance - amount)))).1.find? (fun x => x.id == u.id) =
      some { u with balance := u.balance - amount }
    rw [hfix]
    show (updateFirst (getUsersFn st.users).1 u.id (u.balance - amount)).find?
        (fun x => x.id == u.id) = some { u with balance := u.balance - amount }
    exact find?_id_updateFirst _ hfind

/-- C2 witness: confirming 40 for the default user debits the stored balance
from 100 to 60. -/
theorem claim_C2_witness :
    (40 : ℚ) ≤ lalitUser.balance ∧
    (getUsersFn Store.empty.users).1.find? (fun x => x.id == lalitUser.id) =
      some lalitUser ∧
    (getUsersFn (handleConfirm Store.empty (some 40) (some lalitUser) none 100
        "s1" "t1" true).1.users).1.find? (fun x => x.id == lalitUser.id) =
      some { lalitUser with balance := lalitUser.balance - 40 } :=
  ⟨by decide, by decide,
    (claim_C2 Store.empty lalitUser 40 none 100 "s1" "t1" true
      (some "RFID001") (by decide) (by decide)).2.1⟩

/-- C3 counterexample: with the relay-enable call failing
(`relayOk = false`), the confirmation flow still debits the balance and
stores an `in_progress` session: the start transition is not aborted and the
system is not left idle. -/
theorem claim_C3_counterexample :
    (handleConfirm Store.empty (some 40) (some lalitUser) none 100 "s1" "t1"
      false).1.sessions ≠ [] ∧
    countInProgress (handleConfirm Store.empty (some 40) (some lalitUser) none
      100 "s1" "t1" false).1.sessions = 1 ∧
    (getUsersFn (handleConfirm Store.empty (some 40) (some lalitUser) none 100
      "s1" "t1" false).1.users).1.find? (fun x => x.id == lalitUser.id) =
      some { lalitUser with balance := lalitUser.balance - 40 } ∧
    lalitUser.balance - 40 = 60 := by
  exact ⟨by decide, by decide, rfl, by norm_num [lalitUser]⟩

/-- C3 amended: `handleConfirm` awaits `hardware.startCharging` only after
all writes and discards its result, so a relay-enable failure changes
nothing: the outcome equals the success case, the `in_progress` session
record is created and the balance is debited (the code does not fail closed
on start). -/
theorem claim_C3 (st : Store) (u : User) (amount : ℚ)
    (bs : Option BatteryStatus) (fc : ℚ) (newId now : String)
    (hfind : (getUsersFn st.users).1.find? (fun x => x.id == u.id) = some u) :
    handleConfirm st (some amount) (some u) bs fc newId now false =
      handleConfirm st (some amount) (some u) bs fc newId now true ∧
    (∃ sess, (handleConfirm st (some amount) (some u) bs fc newId now
        false).2 = some sess ∧
      (handleConfirm st (some amount) (some u) bs fc newId now
        false).1.sessions = st.sessions ++ [sess] ∧
      sess.status = SessionStatus.in_progress) ∧
    (getUsersFn (handleConfirm st (some amount) (some u) bs fc newId now
        false).1.users).1.find? (fun x => x.id == u.id) =
      some { u with balance := u.balance - amount } :=
  ⟨rfl, ⟨_, rfl, rfl, rfl⟩,
    handleConfirm_balance_read st u amount bs fc newId now false hfind⟩

/-- C3 witness: a concrete failed relay-enable leaves the same store as a
successful one. -/
theorem claim_C3_witness :
    (getUsersFn Store.empty.users).1.find?
        (fun x => x.id == nishadUser.id) = some nishadUser ∧
    handleConfirm Store.empty (some 30) (some nishadUser) none 100 "s9" "t9"
        false =
      handleConfirm Store.empty (some 30) (some nishadUser) none 100 "s9" "t9"
        true :=
  ⟨by decide,
    (claim_C3 Store.empty nishadUser 30 none 100 "s9" "t9" (by decide)).1⟩

/-- C4 counterexample: a metering tick on an `in_progress` session whose
`remainingBalance` is -5 (exhausted) but whose sampled battery 50 is below
the target 75 does not stop the session at all: it stays `in_progress` with
no `endTime`, contradicting the claimed balance-exhaustion auto-stop. -/
theorem claim_C4_counterexample :
    exhaustedSession.remainingBalance ≤ 0 ∧
    exhaustedSession.status = SessionStatus.in_progress ∧
    (meteringTick (some exhaustedSession) [exhaustedSession]
      (some batterySample50) 12 "t2").1 = some exhaustedSession := by
  exact ⟨by decide, rfl, by decide⟩

/-- C4 amended: the metering tick of `AppContext` stops a session only when
the sampled battery (`batteryStatus?.percentage || 0`) reaches
`targetBattery`; `remainingBalance` is never consulted.  Below target the
session stays `in_progress` unchanged whatever its remaining balance; at or
above target it is finalized with status `completed`, `endTime` stamped and
`endBattery` frozen at the sampled value (`null` when the sample is absent or
zero). -/
theorem claim_C4 (sess : ChargingSession) (sessions : List ChargingSession)
    (bs : Option BatteryStatus) (energy : ℚ) (endTime : String)
    (hst : sess.status = SessionStatus.in_progress) :
    (jsOrQ (bs.map (fun b => b.percentage)) 0 < sess.targetBattery →
      (meteringTick (some sess) sessions bs energy endTime).1 = some sess) ∧
    (sess.targetBattery ≤ jsOrQ (bs.map (fun b => b.percentage)) 0 →
      (meteringTick (some sess) sessions bs energy endTime).1 =
        some (stopChargingUpdate sess SessionStatus.completed bs energy
          endTime)) := by
  constructor
  · intro hlt
    simp only [meteringTick]
    rw [if_pos hst, if_neg (not_le.mpr hlt)]
  · intro hge
    simp only [meteringTick]
    rw [if_pos hst, if_pos hge]

/-- C4 witness: with a sampled battery of 80 at target 75, the tick finalizes
the session as `completed` with `endBattery = 80`. -/
theorem claim_C4_witness :
    exhaustedSession.status = SessionStatus.in_progress ∧
    exhaustedSession.targetBattery ≤
      jsOrQ ((some batterySample80).map (fun b => b.percentage)) 0 ∧
    (meteringTick (some exhaustedSession) [exhaustedSession]
        (some batterySample80) 12 "t2").1 =
      some (stopChargingUpdate exhaustedSession SessionStatus.completed
        (some batterySample80) 12 "t2") :=
  ⟨rfl, by decide,
    (claim_C4 exhaustedSession [exhaustedSession] (some batterySample80) 12
      "t2" rfl).2 (by decide)⟩

/-- C8: writing a new balance through `db.updateUserBalance` and immediately
reading the same user back (through `db.getUserByRfid`, or through
`db.getUsers` plus the id lookup) returns the newly written balance, for any
store whose user list carries pairwise-distinct ids and card ids. -/
theorem claim_C8 (stored : Option (List User)) (u : User) (nb : ℚ)
    (hmem : u ∈ (getUsersFn stored).1)
    (hid : ((getUsersFn stored).1.map (fun x => x.id)).Nodup)
    (hrfid : ((getUsersFn stored).1.map (fun x => x.rfidCardId)).Nodup) :
    (getUserByRfidFn (updateUserBalanceFn stored u.id nb)
        u.rfidCardId).1 = some { u with balance := nb } ∧
    (getUsersFn (updateUserBalanceFn stored u.id nb)).1.find?
        (fun x => x.id == u.id) = some { u with balance := nb } := by
  have hfind : (getUsersFn stored).1.find? (fun x => x.id == u.id) = some u :=
    find?_id_of_mem_nodup hid hmem
  have hupd : updateUserBalanceFn stored u.id nb =
      some (updateFirst (getUsersFn stored).1 u.id nb) :=
    updateUserBalanceFn_found nb hfind
  have hfix := getUsersFn_after_update stored u.id nb
  constructor
  · show (getUsersFn (updateUserBalanceFn stored u.id nb)).1.find?
        (fun x => x.rfidCardId == u.rfidCardId) = some { u with balance := nb }
    rw [hupd, hfix]
    show (updateFirst (getUsersFn stored).1 u.id nb).find?
        (fun x => x.rfidCardId == u.rfidCardId) = some { u with balance := nb }
    exact find?_rfid_updateFirst nb hmem hid hrfid
  · rw [hupd, hfix]
    show (updateFirst (getUsersFn stored).1 u.id nb).find?
        (fun x => x.id == u.id) = some { u with balance := nb }
    exact find?_id_updateFirst nb hfind

/-- C8 witness: writing balance 200 for the second default user and reading
the card back returns 200, not the pre-write 150. -/
theorem claim_C8_witness :
    fateenUser ∈ (getUsersFn Store.empty.users).1 ∧
    ((getUsersFn Store.empty.users).1.map (fun x => x.id)).Nodup ∧
    ((getUsersFn Store.empty.users).1.map (fun x => x.rfidCardId)).Nodup ∧
    (getUserByRfidFn (updateUserBalanceFn Store.empty.users fateenUser.id 200)
      fateenUser.rfidCardId).1 = some { fateenUser with balance := 200 } :=
  ⟨by decide, by decide, by decide,
    (claim_C8 Store.empty.users fateenUser 200 (by decide) (by decide)
      (by decide)).1⟩

end EVKiosk
